import Mathlib

/-!
Shallow embedding of the stem-tagging engine of `src/workers/tagging/tag_stems.py`
and `src/workers/tagging/label_map.py`.

Conventions of the embedding:
* Python float scores are modelled as exact rationals (`ℚ`); the thresholds
  of the source (0.15, 0.3, 0.7, 1.2, 0.25, 0.4, ...) are all decimal
  literals, rendered as the corresponding rationals.
* Python dicts that map tag names to scores are modelled as association
  lists `List (String × ℚ)` in insertion order (Python dicts preserve
  insertion order); `setMax m k v` renders `m[k] = max(m.get(k, 0.0), v)`
  and `setAssign m k v` renders a plain `m[k] = v`.
* Calls into external numeric libraries (librosa, scipy, the PANNs
  classifier, soundfile) are the system's declared external boundary: their
  outputs (raw predictions, spectral centroid, RMS envelope, periodogram,
  stereo width, onset strength) enter the embedded functions as inputs,
  and everything the repository itself computes from them is embedded.
* `stereo_width_estimate` needs Pearson correlation, hence real square
  roots, so that one function is embedded over `ℝ`.
-/

/-- Lowercase of a string, character by character; renders Python's
`str.lower()` on the ASCII label strings the tagger handles. -/
def strLower (s : String) : String :=
  ⟨s.data.map Char.toLower⟩

/-- Containment of `need` in `hay` over character lists; helper for
`strContains`. -/
def charsContain : List Char → List Char → Bool
  | [], need => need.isEmpty
  | c :: t, need => need.isPrefixOf (c :: t) || charsContain t need

/-- Renders Python's substring test `need in hay`. -/
def strContains (hay need : String) : Bool :=
  charsContain hay.data need.data

/-- Does the association list `m` bind the key `k`; renders Python's
`k in m` on a dict. -/
def hasKey (m : List (String × ℚ)) (k : String) : Bool :=
  m.any (fun p => p.1 == k)

/-- Renders `m[k] = max(m.get(k, 0.0), v)`: an existing binding keeps its
position and is raised to the max, a missing key is appended. -/
def setMax (m : List (String × ℚ)) (k : String) (v : ℚ) : List (String × ℚ) :=
  if hasKey m k then m.map (fun p => if p.1 = k then (p.1, max p.2 v) else p)
  else m ++ [(k, max 0 v)]

/-- Renders a plain dict assignment `m[k] = v`. -/
def setAssign (m : List (String × ℚ)) (k : String) (v : ℚ) : List (String × ℚ) :=
  if hasKey m k then m.map (fun p => if p.1 = k then (p.1, v) else p)
  else m ++ [(k, v)]

/-- STOP_LABELS of `label_map.py`: labels filtered out before mapping. -/
def STOP_LABELS : List String := ["music"]

/-- DRUM_LABELS of `label_map.py`, in dict (insertion) order. -/
def DRUM_LABELS : List (String × String) :=
  [("kick drum", "kick"), ("bass drum", "kick"), ("kick", "kick"),
   ("snare drum", "snare"), ("snare", "snare"),
   ("hi-hat", "hi-hat"), ("hi hat", "hi-hat"), ("hihat", "hi-hat"),
   ("cymbal", "hi-hat"), ("ride cymbal", "hi-hat"), ("crash cymbal", "hi-hat"),
   ("tom-tom", "perc_loop"), ("clap", "clap"), ("hand clap", "clap"),
   ("thunk", "perc_loop"), ("percussion", "perc_loop"), ("drum machine", "perc_loop")]

/-- INSTRUMENT_LABELS of `label_map.py`, in dict (insertion) order. -/
def INSTRUMENT_LABELS : List (String × String) :=
  [("organ", "organ"), ("hammond organ", "organ"), ("electronic organ", "organ"),
   ("piano", "piano"), ("electric piano", "rhodes"), ("rhodes", "rhodes"),
   ("harpsichord", "bell"), ("bell", "bell"), ("glockenspiel", "bell"),
   ("acoustic guitar", "pluck"), ("electric guitar", "pluck"),
   ("violin", "lead"), ("cello", "lead"), ("strings", "lead"),
   ("synthesizer", "pluck"), ("sampler", "pluck"),
   ("singing", "vox_lead"), ("synthetic singing", "vox_lead"),
   ("choir", "vox_harmony"), ("vocal", "vox"), ("a capella", "vox_lead"),
   ("speech", "vox_rap"), ("rap", "vox_rap"), ("chant", "vox_harmony"),
   ("electric bass", "synth_bass"), ("bass guitar", "synth_bass"),
   ("synth bass", "synth_bass"), ("808", "sub_808"), ("sub", "sub_808"),
   ("sub bass", "sub_808")]

/-- AUDIOSET_TO_COARSE of `label_map.py`, in dict (insertion) order.  The
source dict literal repeats the keys "synthesizer" and "electronic" with the
same value "synth_pad"; a Python dict keeps the first position, so the
duplicates collapse to the single entries below. -/
def AUDIOSET_TO_COARSE : List (String × String) :=
  [("drum", "perc_loop"), ("drum kit", "perc_loop"),
   ("snare drum", "snare"), ("snare", "snare"),
   ("bass drum", "kick"), ("kick drum", "kick"), ("kick", "kick"),
   ("hi-hat", "hi-hat"), ("hi hat", "hi-hat"), ("hihat", "hi-hat"),
   ("cymbal", "hi-hat"), ("ride cymbal", "hi-hat"), ("crash cymbal", "hi-hat"),
   ("tom-tom", "perc_loop"), ("clap", "clap"), ("hand clap", "clap"),
   ("thunk", "perc_loop"), ("percussion", "perc_loop"), ("drum machine", "perc_loop"),
   ("electric bass", "synth_bass"), ("bass guitar", "synth_bass"),
   ("synth bass", "synth_bass"), ("808", "sub_808"), ("sub", "sub_808"),
   ("sub bass", "sub_808"), ("bass", "synth_bass"), ("low frequency", "synth_bass"),
   ("piano", "piano"), ("electric piano", "rhodes"), ("rhodes", "rhodes"),
   ("organ", "organ"), ("hammond organ", "organ"), ("electronic organ", "organ"),
   ("musical instrument", "organ"), ("keyboard (musical)", "piano"),
   ("harpsichord", "bell"), ("bell", "bell"), ("glockenspiel", "bell"),
   ("acoustic guitar", "pluck"), ("electric guitar", "pluck"),
   ("violin", "lead"), ("cello", "lead"), ("strings", "lead"),
   ("synthesizer", "synth_pad"), ("sampler", "synth_pad"),
   ("electronic", "synth_pad"), ("electronic music", "synth_pad"),
   ("melody", "saw_lead"), ("lead", "saw_lead"), ("pad", "synth_pad"),
   ("atmosphere", "synth_pad"), ("ambient", "synth_pad"), ("texture", "synth_pad"),
   ("singing", "vox_lead"), ("synthetic singing", "vox_lead"),
   ("choir", "vox_harmony"), ("vocal", "vox"), ("a capella", "vox_lead"),
   ("speech", "vox_lead"), ("rap", "vox_rap"), ("chant", "vox_harmony"),
   ("reverberation", "vinyl_noise"), ("echo", "vinyl_noise"),
   ("chorus effect", "vinyl_noise"), ("distortion", "impact"),
   ("overdrive", "impact"), ("saturation", "impact"),
   ("techno", "synth_pad"), ("house", "synth_pad"), ("trance", "synth_pad"),
   ("ambient music", "synth_pad"), ("keyboard", "synth_pad"),
   ("synthesizer (musical)", "synth_pad")]

/-- STEM_KEYWORDS of `map_audioset_to_coarse_stem_aware`, with the
`.get(stem_type, [])` default for an unknown stem type. -/
def STEM_KEYWORDS (stem_type : String) : List String :=
  if stem_type = "drums" then
    ["kick", "snare", "hi-hat", "drum", "percussion", "cymbal", "clap", "thunk"]
  else if stem_type = "bass" then
    ["bass", "808", "sub", "low frequency", "electric bass"]
  else if stem_type = "vocals" then
    ["singing", "speech", "vocal", "rap", "choir", "chant"]
  else if stem_type = "other" then
    ["synthesizer", "piano", "organ", "guitar", "strings", "melody", "pad"]
  else []

/-- map_keyword_to_tag of `tag_stems.py`: the stem-specific deterministic
rule applied to a matched keyword; `none` renders the final `return None`
for an unknown stem type. -/
def map_keyword_to_tag (keyword stem_type : String) : Option String :=
  let kw := strLower keyword
  if stem_type = "drums" then
    if strContains kw "kick" then some "kick"
    else if strContains kw "snare" then some "snare"
    else if strContains kw "hi-hat" || strContains kw "hi hat" || strContains kw "cymbal" then
      some "hi-hat"
    else if strContains kw "clap" then some "clap"
    else some "perc_loop"
  else if stem_type = "bass" then
    if strContains kw "808" || strContains kw "sub" then some "sub_808"
    else if strContains kw "bass" then some "synth_bass"
    else some "synth_bass"
  else if stem_type = "vocals" then
    if strContains kw "rap" then some "vox_rap"
    else if strContains kw "singing" then some "vox_lead"
    else if strContains kw "choir" || strContains kw "chant" then some "vox_harmony"
    else some "vox"
  else if stem_type = "other" then
    if strContains kw "piano" then some "piano"
    else if strContains kw "organ" then some "organ"
    else if strContains kw "guitar" then some "pluck"
    else if strContains kw "strings" then some "lead"
    else if strContains kw "synthesizer" || strContains kw "synth" then some "synth_pad"
    else some "synth_pad"
  else none

/-- One iteration of the prediction loop of
`map_audioset_to_coarse_stem_aware`: stop-label filter, then the stem
keyword table, then (for drums) DRUM_LABELS, then INSTRUMENT_LABELS, then
AUDIOSET_TO_COARSE, each scanned in order with first-substring-match-wins,
aggregating by max into the accumulator `out`. -/
def processPred (stem_type : String) (out : List (String × ℚ)) (pred : String × ℚ) :
    List (String × ℚ) :=
  let lab_l := strLower pred.1
  if lab_l ∈ STOP_LABELS then out
  else
    match ((STEM_KEYWORDS stem_type).find? (fun kw => strContains lab_l kw)).bind
        (fun kw => map_keyword_to_tag kw stem_type) with
    | some tag => setMax out tag pred.2
    | none =>
      match (if stem_type = "drums" then
               DRUM_LABELS.find? (fun kv => strContains lab_l kv.1)
             else none) with
      | some kv => setMax out kv.2 pred.2
      | none =>
        match INSTRUMENT_LABELS.find? (fun kv => strContains lab_l kv.1) with
        | some kv => setMax out kv.2 pred.2
        | none =>
          match AUDIOSET_TO_COARSE.find? (fun kv => strContains lab_l kv.1) with
          | some kv => setMax out kv.2 pred.2
          | none => out

/-- map_audioset_to_coarse_stem_aware of `tag_stems.py`: fold the
prediction list into a coarse-tag score map. -/
def map_audioset_to_coarse_stem_aware (top_preds : List (String × ℚ))
    (stem_type : String) : List (String × ℚ) :=
  top_preds.foldl (processPred stem_type) []

/-- refine_synth_family of `label_map.py`: when a raw label contains
"synth", pick a synth family from the centroid and stereo width cues. -/
def refine_synth_family (top_labels : List (String × ℚ)) (centroid_hz : ℚ)
    (is_wide_stereo : Bool) : Option String :=
  if top_labels.any (fun p => strContains p.1 "synth") then
    if centroid_hz > 3000 ∧ is_wide_stereo then some "saw_lead"
    else if centroid_hz < 1200 then some "synth_pad"
    else some "pluck"
  else none

/-- The output record of analyze_stem_characteristics in `tag_stems.py`. -/
structure Characteristics where
  centroid : ℚ
  rolloff : ℚ
  zero_crossing : ℚ
  tempo : ℚ
  onset_strength : ℚ
deriving DecidableEq, Repr

/-- Does the tag map already hold one of the four drum tags; renders the
`any(tag in tags for tag in ["kick", "snare", "hi-hat", "perc_loop"])`
test of add_spectral_fallbacks. -/
def hasDrumTag (m : List (String × ℚ)) : Bool :=
  ["kick", "snare", "hi-hat", "perc_loop"].any (fun t => hasKey m t)

/-- The if/elif/elif centroid chain for drums in add_spectral_fallbacks
(the value of `tags` after lines 230-235 of `tag_stems.py`): exactly one
of the three injections fires, chosen by the first matching threshold. -/
def drumCentroidStage (tags : List (String × ℚ)) (c : Characteristics) :
    List (String × ℚ) :=
  if c.centroid > 4000 then setMax tags "hi-hat" (3/5)
  else if c.centroid > 2500 then setMax tags "snare" (1/2)
  else if c.centroid > 1500 then setMax tags "kick" (2/5)
  else tags

/-- add_spectral_fallbacks of `tag_stems.py`.  For drums the three centroid
rules form an if/elif/elif chain (drumCentroidStage), and the onset rule
then fires only when none of the four drum tags is present after that
chain; `tags["perc_loop"] = 0.5` appends, since the guard just established
the key is absent. -/
def add_spectral_fallbacks (tags : List (String × ℚ)) (c : Characteristics)
    (stem_type : String) : List (String × ℚ) :=
  if stem_type = "drums" then
    if c.onset_strength > 3/10 ∧ hasDrumTag (drumCentroidStage tags c) = false then
      drumCentroidStage tags c ++ [("perc_loop", 1/2)]
    else drumCentroidStage tags c
  else if stem_type = "bass" then
    if c.centroid < 2000 then setMax tags "sub_808" (3/5)
    else setMax tags "synth_bass" (1/2)
  else if stem_type = "other" then
    if c.centroid > 3000 then setMax tags "saw_lead" (1/2)
    else if c.centroid < 1500 then setMax tags "synth_pad" (1/2)
    else setMax tags "pluck" (2/5)
  else tags

/-- The per-score loop of smart_confidence_calibration (lines 268-275 of
`tag_stems.py`), building the `calibrated` dict: preserve a score above
0.7, boost a score in (0.3, 0.7] by 1.2 capped at 1.0, preserve a score
in (0.15, 0.3], drop anything at or below 0.15. -/
def calibrateStage (tags : List (String × ℚ)) : List (String × ℚ) :=
  tags.filterMap (fun p =>
    if p.2 > 7/10 then some (p.1, p.2)
    else if p.2 > 3/10 then some (p.1, min 1 (p.2 * (6/5)))
    else if p.2 > 3/20 then some (p.1, p.2)
    else none)

/-- The drums minimum-tag guarantee of smart_confidence_calibration
(line 278-279): inject perc_loop = 0.4 when no drum tag survived. -/
def sccDrums (stem_type : String) (m : List (String × ℚ)) : List (String × ℚ) :=
  if stem_type = "drums" ∧
      (["kick", "snare", "hi-hat", "perc_loop"].any (fun t => hasKey m t)) = false then
    m ++ [("perc_loop", 2/5)]
  else m

/-- The bass minimum-tag guarantee of smart_confidence_calibration
(line 281-282): inject synth_bass = 0.4 when no bass tag survived. -/
def sccBass (stem_type : String) (m : List (String × ℚ)) : List (String × ℚ) :=
  if stem_type = "bass" ∧
      (["sub_808", "synth_bass", "reese"].any (fun t => hasKey m t)) = false then
    m ++ [("synth_bass", 2/5)]
  else m

/-- The other minimum-tag guarantee of smart_confidence_calibration
(line 284-285): inject synth_pad = 0.4 when no melodic tag survived. -/
def sccOther (stem_type : String) (m : List (String × ℚ)) : List (String × ℚ) :=
  if stem_type = "other" ∧
      (["synth_pad", "saw_lead", "pluck"].any (fun t => hasKey m t)) = false then
    m ++ [("synth_pad", 2/5)]
  else m

/-- smart_confidence_calibration of `tag_stems.py`: an empty map is
returned unchanged (`if not tags: return {}`); otherwise the per-score
calibration loop runs, followed by the three sequential minimum-tag
guarantee blocks. -/
def smart_confidence_calibration (tags : List (String × ℚ)) (stem_type : String) :
    List (String × ℚ) :=
  if tags.isEmpty then []
  else sccOther stem_type (sccBass stem_type (sccDrums stem_type (calibrateStage tags)))

/-- Is the tag name a meta tag; the `meta_tag_names` set of
separate_meta_content_tags. -/
def isMetaTag (t : String) : Bool :=
  t == "stereo_wide" || t == "sidechain_pump"

/-- separate_meta_content_tags of `tag_stems.py`: split a tag map into
(content, meta), preserving order. -/
def separate_meta_content_tags (tags_dict : List (String × ℚ)) :
    List (String × ℚ) × List (String × ℚ) :=
  (tags_dict.filter (fun p => !(isMetaTag p.1)), tags_dict.filter (fun p => isMetaTag p.1))

/-- Renders Python's `round(v, 2)`: round to the nearest hundredth. -/
def round2 (q : ℚ) : ℚ :=
  ((round (q * 100) : ℤ) : ℚ) / 100

/-- Renders `sorted(items, key=lambda x: -x[1])`: sort the tag map by
descending score. -/
def sortByScoreDesc (m : List (String × ℚ)) : List (String × ℚ) :=
  List.insertionSort (fun a b => b.2 ≤ a.2) m

/-- The content-tag tail of tag_stem (lines 361-362 of `tag_stems.py`):
sort descending by score, truncate to the top 3, keep entries whose
pre-rounding score is at least 0.15, and round each kept score to two
decimal places. -/
def contentStage (m : List (String × ℚ)) : List (String × ℚ) :=
  (((sortByScoreDesc m).take 3).filter (fun p => decide (3/20 ≤ p.2))).map
    (fun p => (p.1, round2 p.2))

/-- The StemAnalysis record returned by tag_stem. -/
structure StemAnalysis where
  file : String
  spectral_centroid_hz : ℚ
  stereo_width : ℚ
  top_audioset : List (String × ℚ)
  content_tags : List (String × ℚ)
  meta_tags : List (String × ℚ)
deriving DecidableEq, Repr

/-- The stem type tag_stem infers from the (lowercased) stem file name. -/
def stem_type_of_name (stem_name : String) : String :=
  if strContains stem_name "drum" then "drums"
  else if strContains stem_name "bass" then "bass"
  else if strContains stem_name "vocal" then "vocals"
  else "other"

/-- tag_stem of `tag_stems.py`.  The inputs produced by the external
numeric libraries enter as arguments: `preds` is the thresholded top-k
classifier output, `centroid` the mean spectral centroid, `width` the
result of stereo_width_estimate, `ch` the analyze_stem_characteristics
record, and `sc_detected`/`sc_score` the per-stem sidechain detection flag
and its squashed score `min(1.0, 0.2 + log10(prominence + 1e-9))`. -/
def tag_stem (file stem_name : String) (preds : List (String × ℚ))
    (centroid width : ℚ) (ch : Characteristics)
    (sc_detected : Bool) (sc_score : ℚ) (global_sidechain : Bool) : StemAnalysis :=
  let stem_type := stem_type_of_name stem_name
  let coarse0 := map_audioset_to_coarse_stem_aware preds stem_type
  let coarse1 := add_spectral_fallbacks coarse0 ch stem_type
  let coarse2 :=
    match refine_synth_family preds centroid (width > 1/4) with
    | some fam => setMax coarse1 fam (1/2)
    | none => coarse1
  let coarse3 :=
    if global_sidechain = false ∧ sc_detected = true then
      setAssign coarse2 "sidechain_pump" sc_score
    else coarse2
  let coarse4 :=
    if width > 1/4 then setAssign coarse3 "stereo_wide" (min 1 width) else coarse3
  let calibrated := smart_confidence_calibration coarse4 stem_type
  let parts := separate_meta_content_tags calibrated
  let top_content := contentStage parts.1
  let meta_tags_list := sortByScoreDesc parts.2
  { file := file
    spectral_centroid_hz := centroid
    stereo_width := width
    top_audioset := preds
    content_tags := top_content
    meta_tags := meta_tags_list }

/-- Mean of a rational list (`np.mean`); the empty list gives `0/0 = 0`. -/
def listMeanQ (xs : List ℚ) : ℚ :=
  xs.sum / xs.length

/-- Population variance of a rational list, `np.std(xs)**2`. -/
def listVarQ (xs : List ℚ) : ℚ :=
  ((xs.map (fun x => (x - listMeanQ xs) ^ 2)).sum) / xs.length

/-- The periodogram bins restricted to the pumping band, rendering
`(freqs >= 0.5) & (freqs <= 4.0)` applied to the (frequency, power)
pairs. -/
def bandOf (spectrum : List (ℚ × ℚ)) : List (ℚ × ℚ) :=
  spectrum.filter (fun p => decide ((1 : ℚ)/2 ≤ p.1 ∧ p.1 ≤ 4))

/-- First (frequency, power) pair of maximal power, rendering `np.argmax`
over the band: a strictly greater power is needed to displace the current
peak, so the first maximum wins. -/
def peakPair (b : ℚ × ℚ) (rest : List (ℚ × ℚ)) : ℚ × ℚ :=
  rest.foldl (fun best p => if p.2 > best.2 then p else best) b

/-- `np.median`: middle element of the ascending sort, or the mean of the
two middle elements for an even length. -/
def medianQ (xs : List ℚ) : ℚ :=
  let s := List.insertionSort (fun a b => a ≤ b) xs
  if s.length % 2 = 1 then s.getD (s.length / 2) 0
  else (s.getD (s.length / 2 - 1) 0 + s.getD (s.length / 2) 0) / 2

/-- detect_sidechain_pump of `tag_stems.py`.  The librosa RMS envelope of
`y` and the scipy periodogram of the mean-removed envelope are external
computations and enter as the arguments `rms` (raw envelope) and
`spectrum` (paired frequencies and powers); everything after them — the
mean removal, the numerically-constant guard `np.allclose(rms.std(), 0)`
(rendered as variance ≤ (1e-8)², since std ≤ 1e-8 iff variance ≤ 1e-16),
the band mask, the peak/median prominence with its 1e-9 guard, the 12.0
threshold and the clamp of the reported prominence at 100 — is the
source's own logic. -/
def detect_sidechain_pump (y : List ℚ) (sr : ℕ) (rms : List ℚ)
    (spectrum : List (ℚ × ℚ)) : Bool × ℚ × Option ℚ :=
  if y.length < sr then (false, 0, none)
  else
    let rmsC := rms.map (fun x => x - listMeanQ rms)
    if listVarQ rmsC ≤ 1/10^16 then (false, 0, none)
    else
      match bandOf spectrum with
      | [] => (false, 0, none)
      | b :: rest =>
        let peak := peakPair b rest
        let med := medianQ ((b :: rest).map Prod.snd)
        let prominence := peak.2 / (med + 1/10^9)
        (decide (prominence > 12), min prominence 100, some peak.1)

/-- The four canonical stem file names of a clip directory, in the fixed
order both detect_global_sidechain and tag_clip_folder iterate them. -/
def canonicalStemFiles : List String :=
  ["drums.wav", "bass.wav", "vocals.wav", "other.wav"]

/-- Zero-pad `xs` on the right to length `n` (`np.pad(xs, (0, n - len))`). -/
def padTo (xs : List ℚ) (n : ℕ) : List ℚ :=
  xs ++ List.replicate (n - xs.length) 0

/-- Sum of two waveforms after zero-padding the shorter to the longer
length, as in the summation loop of detect_global_sidechain. -/
def padAdd (a b : List ℚ) : List ℚ :=
  List.zipWith (· + ·) (padTo a (max a.length b.length)) (padTo b (max a.length b.length))

/-- The stem-summation loop of detect_global_sidechain: fold the canonical
stems in order, keeping `none` until the first present stem and pad-adding
each later one.  `present` maps a canonical file name to its loaded mono
waveform when the file exists. -/
def sumPresentStems (present : String → Option (List ℚ)) : Option (List ℚ) :=
  canonicalStemFiles.foldl (fun acc name =>
    match present name with
    | none => acc
    | some y =>
      match acc with
      | none => some y
      | some s => some (padAdd s y)) none

/-- The results loop of tag_clip_folder: analyze each canonical stem that
is present, in canonical order, and omit the absent ones.  `analyze`
stands for `tag_stem(stem_path, at, global_sidechain=True)` with the
loaded classifier. -/
def tag_clip_results (present : String → Option (List ℚ))
    (analyze : String → List ℚ → StemAnalysis) : List StemAnalysis :=
  canonicalStemFiles.filterMap (fun name => (present name).map (analyze name))

/-- The two-channel view soundfile gives stereo_width_estimate:
`channels` is `data.shape[1]` and `chanL`/`chanR` are the first two
columns (meaningful when `channels ≥ 2`). -/
structure AudioFile where
  channels : ℕ
  chanL : List ℝ
  chanR : List ℝ

/-- Mean of a real list (`np.mean`); the empty list gives `0/0 = 0`. -/
noncomputable def listMeanR (xs : List ℝ) : ℝ :=
  xs.sum / xs.length

/-- Deviations from the mean. -/
noncomputable def devs (xs : List ℝ) : List ℝ :=
  xs.map (fun x => x - listMeanR xs)

/-- Dot product of two real lists. -/
noncomputable def dotR (a b : List ℝ) : ℝ :=
  (List.zipWith (· * ·) a b).sum

/-- Population variance, `np.std(xs)**2`. -/
noncomputable def listVarR (xs : List ℝ) : ℝ :=
  dotR (devs xs) (devs xs) / xs.length

/-- Pearson correlation `np.corrcoef(L, R)[0, 1]`: the (0,1) covariance
entry over the product of the standard deviations; the `1/(n-1)` factors
of numpy's covariance cancel in the ratio. -/
noncomputable def corrcoef (L R : List ℝ) : ℝ :=
  dotR (devs L) (devs R) /
    (Real.sqrt (dotR (devs L) (devs L)) * Real.sqrt (dotR (devs R) (devs R)))

/-- stereo_width_estimate of `tag_stems.py`: width 0 for a file with fewer
than two channels, width 0 when either channel is numerically constant
(`np.allclose(std, 0)`, i.e. std ≤ 1e-8), else `1 - clamp(corr(L,R), -1, 1)`. -/
noncomputable def stereo_width_estimate (f : AudioFile) : ℝ :=
  if f.channels < 2 then 0
  else if Real.sqrt (listVarR f.chanL) ≤ 1/10^8 ∨ Real.sqrt (listVarR f.chanR) ≤ 1/10^8 then 0
  else 1 - max (min (corrcoef f.chanL f.chanR) 1) (-1)

/-! ### Helper lemmas about the association-list operations -/

lemma lookup_append_of_hasKey_false (m : List (String × ℚ)) (k : String)
    (h : hasKey m k = false) (l : List (String × ℚ)) :
    List.lookup k (m ++ l) = List.lookup k l := by
  induction m with
  | nil => simp
  | cons p t ih =>
    obtain ⟨p1, p2⟩ := p
    simp only [hasKey, List.any_cons, Bool.or_eq_false_iff] at h
    have hk : (k == p1) = false := by
      have h1 : (p1 == k) = false := by simpa using h.1
      simp only [beq_eq_false_iff_ne] at h1 ⊢
      exact fun hkk => h1 hkk.symm
    simp only [List.cons_append, List.lookup, hk]
    exact ih (by simpa [hasKey] using h.2)

lemma lookup_map_max (m : List (String × ℚ)) (k : String) (v : ℚ)
    (h : hasKey m k = true) :
    ∃ w, List.lookup k (m.map (fun p => if p.1 = k then (p.1, max p.2 v) else p)) = some w ∧
      v ≤ w := by
  induction m with
  | nil => simp [hasKey] at h
  | cons p t ih =>
    obtain ⟨p1, p2⟩ := p
    by_cases hp : p1 = k
    · have hstep : List.map (fun p : String × ℚ => if p.1 = k then (p.1, max p.2 v) else p)
          ((p1, p2) :: t)
          = (k, max p2 v) ::
            List.map (fun p : String × ℚ => if p.1 = k then (p.1, max p.2 v) else p) t := by
        simp [hp]
      rw [hstep]
      refine ⟨max p2 v, ?_, le_max_right _ _⟩
      simp [List.lookup]
    · have ht : hasKey t k = true := by
        have := List.any_eq_true.mp h
        rcases this with ⟨q, hq, hqk⟩
        rcases List.mem_cons.mp hq with rfl | hq'
        · exact absurd (by simpa using hqk) hp
        · exact List.any_eq_true.mpr ⟨q, hq', hqk⟩
      obtain ⟨w, hw, hvw⟩ := ih ht
      refine ⟨w, ?_, hvw⟩
      have hk : (k == p1) = false := by
        simp only [beq_eq_false_iff_ne]
        exact fun hkk => hp hkk.symm
      have hstep : List.map (fun p : String × ℚ => if p.1 = k then (p.1, max p.2 v) else p)
          ((p1, p2) :: t)
          = (p1, p2) ::
            List.map (fun p : String × ℚ => if p.1 = k then (p.1, max p.2 v) else p) t := by
        simp [hp]
      rw [hstep]
      simpa [List.lookup, hk] using hw

lemma lookup_setMax_self (m : List (String × ℚ)) (k : String) (v : ℚ) :
    ∃ w, List.lookup k (setMax m k v) = some w ∧ v ≤ w := by
  unfold setMax
  by_cases h : hasKey m k = true
  · simpa [h] using lookup_map_max m k v h
  · have h' : hasKey m k = false := by simpa using h
    refine ⟨max 0 v, ?_, le_max_right _ _⟩
    simp [h', lookup_append_of_hasKey_false m k h', List.lookup]

lemma hasKey_setMax_self (m : List (String × ℚ)) (k : String) (v : ℚ) :
    hasKey (setMax m k v) k = true := by
  unfold setMax
  by_cases h : hasKey m k = true
  · rw [if_pos h]
    unfold hasKey at h ⊢
    rw [List.any_map]
    have hfun : ((fun p : String × ℚ => p.1 == k) ∘
        fun p : String × ℚ => if p.1 = k then (p.1, max p.2 v) else p)
        = fun p : String × ℚ => p.1 == k := by
      funext p
      by_cases hp : p.1 = k <;> simp [Function.comp, hp]
    rw [hfun]
    exact h
  · rw [if_neg h]
    unfold hasKey
    rw [List.any_append]
    simp

lemma hasKey_exists (m : List (String × ℚ)) (k : String) (h : hasKey m k = true) :
    ∃ v, (k, v) ∈ m := by
  rcases List.any_eq_true.mp h with ⟨p, hp, hk⟩
  refine ⟨p.2, ?_⟩
  have hpk : p.1 = k := by simpa using hk
  simpa [← hpk] using hp

/-! ### Claim C7 -/

/-- C7: for the raw prediction list [("kick drum", 0.9)] with stem type
drums, the stem-aware mapper returns the tag map {kick: 0.9}, via the
first-matching drums keyword "kick", which map_keyword_to_tag sends to
the tag "kick". -/
theorem claim7_kick_drum_mapping :
    map_audioset_to_coarse_stem_aware [("kick drum", 9/10)] "drums" = [("kick", 9/10)] ∧
    map_keyword_to_tag "kick" "drums" = some "kick" := by
  constructor
  · with_unfolding_all decide
  · decide

/-! ### Claim C9 -/

/-- C9: a waveform shorter than one second of samples (length < sr) makes
detect_sidechain_pump return (False, 0.0, None) regardless of the envelope
and spectrum, so a short clip is never reported as pumping. -/
theorem claim9_short_clip (y : List ℚ) (sr : ℕ) (rms : List ℚ)
    (spectrum : List (ℚ × ℚ)) (h : y.length < sr) :
    detect_sidechain_pump y sr rms spectrum = (false, 0, none) := by
  unfold detect_sidechain_pump
  simp [h]

/-- Witness for C9 at the concrete input y = [], sr = 1. -/
theorem claim9_witness :
    ([] : List ℚ).length < 1 ∧
    detect_sidechain_pump [] 1 [] [] = (false, 0, none) :=
  ⟨by decide, claim9_short_clip [] 1 [] [] (by decide)⟩

/-! ### Helper lemmas about the calibration stages -/

lemma scc_eq_of_ne_nil (tags : List (String × ℚ)) (stem_type : String) (h : tags ≠ []) :
    smart_confidence_calibration tags stem_type
      = sccOther stem_type (sccBass stem_type (sccDrums stem_type (calibrateStage tags))) := by
  unfold smart_confidence_calibration
  rw [if_neg]
  simpa [List.isEmpty_iff] using h

lemma sccDrums_of_ne (stem_type : String) (m : List (String × ℚ)) (h : stem_type ≠ "drums") :
    sccDrums stem_type m = m := by
  unfold sccDrums
  exact if_neg (fun hc => h hc.1)

lemma sccBass_of_ne (stem_type : String) (m : List (String × ℚ)) (h : stem_type ≠ "bass") :
    sccBass stem_type m = m := by
  unfold sccBass
  exact if_neg (fun hc => h hc.1)

lemma sccOther_of_ne (stem_type : String) (m : List (String × ℚ)) (h : stem_type ≠ "other") :
    sccOther stem_type m = m := by
  unfold sccOther
  exact if_neg (fun hc => h hc.1)

lemma mem_sccDrums (stem_type : String) (m : List (String × ℚ)) (p : String × ℚ)
    (h : p ∈ m) : p ∈ sccDrums stem_type m := by
  unfold sccDrums
  split
  · exact List.mem_append_left _ h
  · exact h

lemma mem_sccBass (stem_type : String) (m : List (String × ℚ)) (p : String × ℚ)
    (h : p ∈ m) : p ∈ sccBass stem_type m := by
  unfold sccBass
  split
  · exact List.mem_append_left _ h
  · exact h

lemma mem_sccOther (stem_type : String) (m : List (String × ℚ)) (p : String × ℚ)
    (h : p ∈ m) : p ∈ sccOther stem_type m := by
  unfold sccOther
  split
  · exact List.mem_append_left _ h
  · exact h

lemma exists_key_sccDrums (m : List (String × ℚ)) :
    ∃ p ∈ sccDrums "drums" m, p.1 ∈ (["kick", "snare", "hi-hat", "perc_loop"] : List String) := by
  unfold sccDrums
  by_cases hany : (["kick", "snare", "hi-hat", "perc_loop"].any (fun t => hasKey m t)) = false
  · rw [if_pos ⟨rfl, hany⟩]
    exact ⟨("perc_loop", 2/5), List.mem_append_right _ (by simp), by simp⟩
  · rw [if_neg (fun hc => hany hc.2)]
    have htrue : (["kick", "snare", "hi-hat", "perc_loop"].any (fun t => hasKey m t)) = true := by
      cases hx : (["kick", "snare", "hi-hat", "perc_loop"].any (fun t => hasKey m t)) with
      | false => exact absurd hx hany
      | true => rfl
    rcases List.any_eq_true.mp htrue with ⟨t, ht, htk⟩
    rcases hasKey_exists m t htk with ⟨w, hw⟩
    exact ⟨(t, w), hw, ht⟩

lemma exists_key_sccBass (m : List (String × ℚ)) :
    ∃ p ∈ sccBass "bass" m, p.1 ∈ (["sub_808", "synth_bass", "reese"] : List String) := by
  unfold sccBass
  by_cases hany : (["sub_808", "synth_bass", "reese"].any (fun t => hasKey m t)) = false
  · rw [if_pos ⟨rfl, hany⟩]
    exact ⟨("synth_bass", 2/5), List.mem_append_right _ (by simp), by simp⟩
  · rw [if_neg (fun hc => hany hc.2)]
    have htrue : (["sub_808", "synth_bass", "reese"].any (fun t => hasKey m t)) = true := by
      cases hx : (["sub_808", "synth_bass", "reese"].any (fun t => hasKey m t)) with
      | false => exact absurd hx hany
      | true => rfl
    rcases List.any_eq_true.mp htrue with ⟨t, ht, htk⟩
    rcases hasKey_exists m t htk with ⟨w, hw⟩
    exact ⟨(t, w), hw, ht⟩

lemma exists_key_sccOther (m : List (String × ℚ)) :
    ∃ p ∈ sccOther "other" m, p.1 ∈ (["synth_pad", "saw_lead", "pluck"] : List String) := by
  unfold sccOther
  by_cases hany : (["synth_pad", "saw_lead", "pluck"].any (fun t => hasKey m t)) = false
  · rw [if_pos ⟨rfl, hany⟩]
    exact ⟨("synth_pad", 2/5), List.mem_append_right _ (by simp), by simp⟩
  · rw [if_neg (fun hc => hany hc.2)]
    have htrue : (["synth_pad", "saw_lead", "pluck"].any (fun t => hasKey m t)) = true := by
      cases hx : (["synth_pad", "saw_lead", "pluck"].any (fun t => hasKey m t)) with
      | false => exact absurd hx hany
      | true => rfl
    rcases List.any_eq_true.mp htrue with ⟨t, ht, htk⟩
    rcases hasKey_exists m t htk with ⟨w, hw⟩
    exact ⟨(t, w), hw, ht⟩

lemma mem_calibrateStage_of_mem (tags : List (String × ℚ)) (name : String) (s : ℚ)
    (hmem : (name, s) ∈ tags) (hs : s > 3/20) :
    (name, if s > 7/10 then s else if s > 3/10 then min 1 (s * (6/5)) else s) ∈
      calibrateStage tags := by
  unfold calibrateStage
  apply List.mem_filterMap.mpr
  refine ⟨(name, s), hmem, ?_⟩
  by_cases h7 : s > 7/10
  · simp [h7]
  · by_cases h3 : s > 3/10
    · simp [h7, h3]
    · simp [h7, h3, hs]

/-! ### Claim C2 -/

/-- C2: the confidence calibrator acts pointwise on every tag score s:
s > 0.7 is preserved, s in (0.3, 0.7] becomes min(1, 1.2 s), s in
(0.15, 0.3] is preserved, s ≤ 0.15 is dropped; in particular 0.8 stays
0.8, 0.5 becomes min(1, 0.6) = 0.6, 0.2 stays 0.2 and 0.1 is dropped. -/
theorem claim2_confidence_calibration (tags : List (String × ℚ))
    (stem_type name : String) (s : ℚ) :
    ((name, s) ∈ tags → s > 7/10 → (name, s) ∈ smart_confidence_calibration tags stem_type) ∧
    ((name, s) ∈ tags → s > 3/10 → s ≤ 7/10 →
      (name, min 1 (s * (6/5))) ∈ smart_confidence_calibration tags stem_type) ∧
    ((name, s) ∈ tags → s > 3/20 → s ≤ 3/10 →
      (name, s) ∈ smart_confidence_calibration tags stem_type) ∧
    (s ≤ 3/20 → smart_confidence_calibration [(name, s)] "vocals" = []) ∧
    smart_confidence_calibration [(name, 4/5)] "vocals" = [(name, 4/5)] ∧
    (smart_confidence_calibration [(name, 1/2)] "vocals" = [(name, 3/5)] ∧
      min 1 ((1 : ℚ)/2 * (6/5)) = 3/5) ∧
    smart_confidence_calibration [(name, 1/5)] "vocals" = [(name, 1/5)] ∧
    smart_confidence_calibration [(name, 1/10)] "vocals" = [] := by
  have hvoc : ∀ (l : List (String × ℚ)), l ≠ [] →
      smart_confidence_calibration l "vocals" = calibrateStage l := by
    intro l hl
    rw [scc_eq_of_ne_nil l "vocals" hl, sccDrums_of_ne _ _ (by decide),
      sccBass_of_ne _ _ (by decide), sccOther_of_ne _ _ (by decide)]
  have hkeep : ∀ (v : ℚ), (name, v) ∈ tags → v > 3/20 →
      (name, if v > 7/10 then v else if v > 3/10 then min 1 (v * (6/5)) else v) ∈
        smart_confidence_calibration tags stem_type := by
    intro v hmem hv
    rw [scc_eq_of_ne_nil tags stem_type (List.ne_nil_of_mem hmem)]
    exact mem_sccOther _ _ _ (mem_sccBass _ _ _ (mem_sccDrums _ _ _
      (mem_calibrateStage_of_mem tags name v hmem hv)))
  refine ⟨?_, ?_, ?_, ?_, ?_, ⟨?_, by norm_num⟩, ?_, ?_⟩
  · intro hmem h7
    have := hkeep s hmem (lt_trans (by norm_num) h7)
    simpa [h7] using this
  · intro hmem h3 h7
    have := hkeep s hmem (lt_trans (by norm_num) h3)
    simpa [not_lt.mpr h7, h3] using this
  · intro hmem h15 h3
    have hmm := hkeep s hmem h15
    have h7' : ¬(7/10 < s) := not_lt.mpr (h3.trans (by norm_num))
    have h3' : ¬(3/10 < s) := not_lt.mpr h3
    simpa [h7', h3'] using hmm
  · intro hs
    rw [hvoc [(name, s)] (by simp)]
    unfold calibrateStage
    simp [not_lt.mpr hs, not_lt.mpr (le_trans hs (by norm_num : (3:ℚ)/20 ≤ 3/10)),
      not_lt.mpr (le_trans hs (by norm_num : (3:ℚ)/20 ≤ 7/10))]
  · rw [hvoc [(name, 4/5)] (by simp)]
    unfold calibrateStage
    simp only [List.filterMap_cons, List.filterMap_nil]
    norm_num
  · rw [hvoc [(name, 1/2)] (by simp)]
    unfold calibrateStage
    simp only [List.filterMap_cons, List.filterMap_nil]
    norm_num
  · rw [hvoc [(name, 1/5)] (by simp)]
    unfold calibrateStage
    simp only [List.filterMap_cons, List.filterMap_nil]
    norm_num
  · rw [hvoc [(name, 1/10)] (by simp)]
    unfold calibrateStage
    simp only [List.filterMap_cons, List.filterMap_nil]
    norm_num

/-- Witness for C2 at name = "x", s = 4/5, tags = [("x", 4/5)],
stem type "vocals". -/
theorem claim2_witness :
    (("x", (4:ℚ)/5) ∈ [("x", (4:ℚ)/5)] ∧ (4:ℚ)/5 > 7/10 ∧
      ("x", (4:ℚ)/5) ∈ smart_confidence_calibration [("x", (4:ℚ)/5)] "vocals") ∧
    smart_confidence_calibration [("x", (1:ℚ)/2)] "vocals" = [("x", (3:ℚ)/5)] ∧
    smart_confidence_calibration [("x", (1:ℚ)/10)] "vocals" = [] := by
  have h := claim2_confidence_calibration [("x", (4:ℚ)/5)] "vocals" "x" (4/5)
  have h2 := claim2_confidence_calibration [("x", (1:ℚ)/2)] "vocals" "x" (1/2)
  have h3 := claim2_confidence_calibration [("x", (1:ℚ)/10)] "vocals" "x" (1/10)
  exact ⟨⟨by simp, by norm_num, h.1 (by simp) (by norm_num)⟩,
    h2.2.2.2.2.2.1.1, h3.2.2.2.2.2.2.2⟩

/-! ### Claim C3 -/

/-- C3 counterexample: on the empty pre-calibration tag map the calibrator
returns an empty map for a drums stem — no perc_loop is injected — so the
guarantee fails as stated; the second conjunct shows the situation is
reachable through tag_stem (a silent drums stem with no predictions, zero
centroid and zero onset strength ends with no content tag at all). -/
theorem claim3_counterexample :
    smart_confidence_calibration [] "drums" = [] ∧
    (tag_stem "drums.wav" "mydrums" [] 0 0 ⟨0, 0, 0, 0, 0⟩ false 0 true).content_tags = [] := by
  constructor
  · rfl
  · with_unfolding_all decide

/-- C3 amended: for every nonempty pre-calibration tag map, the calibrated
map of a drums stem holds one of {kick, snare, hi-hat, perc_loop}, of a
bass stem one of {sub_808, synth_bass, reese}, of an other stem one of
{synth_pad, saw_lead, pluck}; and for a vocals stem every calibrated tag
name already occurs in the input (nothing is injected). -/
theorem claim3_min_tag_guarantee (tags : List (String × ℚ)) (h : tags ≠ []) :
    (∃ p ∈ smart_confidence_calibration tags "drums",
      p.1 ∈ (["kick", "snare", "hi-hat", "perc_loop"] : List String)) ∧
    (∃ p ∈ smart_confidence_calibration tags "bass",
      p.1 ∈ (["sub_808", "synth_bass", "reese"] : List String)) ∧
    (∃ p ∈ smart_confidence_calibration tags "other",
      p.1 ∈ (["synth_pad", "saw_lead", "pluck"] : List String)) ∧
    (∀ p ∈ smart_confidence_calibration tags "vocals", ∃ s, (p.1, s) ∈ tags) := by
  refine ⟨?_, ?_, ?_, ?_⟩
  · rw [scc_eq_of_ne_nil tags "drums" h, sccBass_of_ne _ _ (by decide),
      sccOther_of_ne _ _ (by decide)]
    exact exists_key_sccDrums (calibrateStage tags)
  · rw [scc_eq_of_ne_nil tags "bass" h, sccDrums_of_ne _ _ (by decide),
      sccOther_of_ne _ _ (by decide)]
    exact exists_key_sccBass (calibrateStage tags)
  · rw [scc_eq_of_ne_nil tags "other" h, sccDrums_of_ne _ _ (by decide),
      sccBass_of_ne _ _ (by decide)]
    exact exists_key_sccOther (calibrateStage tags)
  · intro p hp
    rw [scc_eq_of_ne_nil tags "vocals" h, sccDrums_of_ne _ _ (by decide),
      sccBass_of_ne _ _ (by decide), sccOther_of_ne _ _ (by decide)] at hp
    rcases List.mem_filterMap.mp hp with ⟨a, ha, hfa⟩
    refine ⟨a.2, ?_⟩
    have hk : p.1 = a.1 := by
      by_cases h7 : a.2 > 7/10
      · simp [h7] at hfa
        rw [← hfa]
      · by_cases h3 : a.2 > 3/10
        · simp [h7, h3] at hfa
          rw [← hfa]
        · by_cases h15 : a.2 > 3/20
          · simp [h7, h3, h15] at hfa
            rw [← hfa]
          · simp [h7, h3, h15] at hfa
    rw [hk]
    exact ha

/-- Witness for C3 at the nonempty concrete input [("x", 1)]. -/
theorem claim3_witness :
    (∃ p ∈ smart_confidence_calibration [("x", (1:ℚ))] "drums",
      p.1 ∈ (["kick", "snare", "hi-hat", "perc_loop"] : List String)) ∧
    (∃ p ∈ smart_confidence_calibration [("x", (1:ℚ))] "bass",
      p.1 ∈ (["sub_808", "synth_bass", "reese"] : List String)) ∧
    (∃ p ∈ smart_confidence_calibration [("x", (1:ℚ))] "other",
      p.1 ∈ (["synth_pad", "saw_lead", "pluck"] : List String)) ∧
    (∀ p ∈ smart_confidence_calibration [("x", (1:ℚ))] "vocals",
      ∃ s, (p.1, s) ∈ [("x", (1:ℚ))]) :=
  claim3_min_tag_guarantee [("x", 1)] (by simp)

/-! ### Claim C5 -/

lemma asf_drums (tags : List (String × ℚ)) (ch : Characteristics) :
    add_spectral_fallbacks tags ch "drums"
      = if ch.onset_strength > 3/10 ∧ hasDrumTag (drumCentroidStage tags ch) = false then
          drumCentroidStage tags ch ++ [("perc_loop", 1/2)]
        else drumCentroidStage tags ch := by
  unfold add_spectral_fallbacks
  rw [if_pos rfl]

lemma asf_drums_of_key (tags : List (String × ℚ)) (ch : Characteristics) (k : String)
    (hk : k ∈ (["kick", "snare", "hi-hat", "perc_loop"] : List String))
    (h : hasKey (drumCentroidStage tags ch) k = true) :
    add_spectral_fallbacks tags ch "drums" = drumCentroidStage tags ch := by
  have hdt : hasDrumTag (drumCentroidStage tags ch) = true := by
    unfold hasDrumTag
    exact List.any_eq_true.mpr ⟨k, hk, h⟩
  rw [asf_drums]
  rw [if_neg]
  intro hc
  rw [hdt] at hc
  exact absurd hc.2 (by simp)

/-- C5 counterexample: with an empty incoming tag map, spectral centroid
5000 and onset strength 0, the drums fallback adds only hi-hat = 0.6; in
particular the centroid is above 2500 and above 1500, yet no snare and no
kick entry exists, refuting the claim's reading of the three rules as
independent conditionals (the source chains them with elif). -/
theorem claim5_counterexample :
    add_spectral_fallbacks [] ⟨5000, 0, 0, 0, 0⟩ "drums" = [("hi-hat", 3/5)] ∧
    List.lookup "snare" (add_spectral_fallbacks [] ⟨5000, 0, 0, 0, 0⟩ "drums") = none ∧
    List.lookup "kick" (add_spectral_fallbacks [] ⟨5000, 0, 0, 0, 0⟩ "drums") = none ∧
    ((5000 : ℚ) > 2500 ∧ (5000 : ℚ) > 1500) := by
  refine ⟨?_, ?_, ?_, by norm_num⟩
  · with_unfolding_all decide
  · with_unfolding_all decide
  · with_unfolding_all decide

/-- C5 amended: the three drums centroid rules are an if/elif/elif chain —
hi-hat ≥ 0.6 when centroid > 4000, snare ≥ 0.5 when 2500 < centroid ≤
4000, kick ≥ 0.4 when 1500 < centroid ≤ 2500 — and if onset strength >
0.3, centroid ≤ 1500 and none of {kick, snare, hi-hat, perc_loop} is in
the incoming map, perc_loop is set to 0.5. -/
theorem claim5_drum_fallbacks (tags : List (String × ℚ)) (ch : Characteristics) :
    (ch.centroid > 4000 →
      ∃ w, List.lookup "hi-hat" (add_spectral_fallbacks tags ch "drums") = some w ∧ 3/5 ≤ w) ∧
    (ch.centroid ≤ 4000 → ch.centroid > 2500 →
      ∃ w, List.lookup "snare" (add_spectral_fallbacks tags ch "drums") = some w ∧ 1/2 ≤ w) ∧
    (ch.centroid ≤ 2500 → ch.centroid > 1500 →
      ∃ w, List.lookup "kick" (add_spectral_fallbacks tags ch "drums") = some w ∧ 2/5 ≤ w) ∧
    (ch.onset_strength > 3/10 → ch.centroid ≤ 1500 → hasDrumTag tags = false →
      ("perc_loop", 1/2) ∈ add_spectral_fallbacks tags ch "drums") := by
  refine ⟨?_, ?_, ?_, ?_⟩
  · intro h4
    have ht1 : drumCentroidStage tags ch = setMax tags "hi-hat" (3/5) := by
      unfold drumCentroidStage
      rw [if_pos h4]
    have hr : add_spectral_fallbacks tags ch "drums" = setMax tags "hi-hat" (3/5) := by
      rw [asf_drums_of_key tags ch "hi-hat" (by simp)
        (by rw [ht1]; exact hasKey_setMax_self tags "hi-hat" (3/5))]
      exact ht1
    rw [hr]
    exact lookup_setMax_self tags "hi-hat" (3/5)
  · intro h4 h25
    have ht1 : drumCentroidStage tags ch = setMax tags "snare" (1/2) := by
      unfold drumCentroidStage
      rw [if_neg (not_lt.mpr h4), if_pos h25]
    have hr : add_spectral_fallbacks tags ch "drums" = setMax tags "snare" (1/2) := by
      rw [asf_drums_of_key tags ch "snare" (by simp)
        (by rw [ht1]; exact hasKey_setMax_self tags "snare" (1/2))]
      exact ht1
    rw [hr]
    exact lookup_setMax_self tags "snare" (1/2)
  · intro h25 h15
    have ht1 : drumCentroidStage tags ch = setMax tags "kick" (2/5) := by
      unfold drumCentroidStage
      rw [if_neg (not_lt.mpr (h25.trans (by norm_num))), if_neg (not_lt.mpr h25), if_pos h15]
    have hr : add_spectral_fallbacks tags ch "drums" = setMax tags "kick" (2/5) := by
      rw [asf_drums_of_key tags ch "kick" (by simp)
        (by rw [ht1]; exact hasKey_setMax_self tags "kick" (2/5))]
      exact ht1
    rw [hr]
    exact lookup_setMax_self tags "kick" (2/5)
  · intro honset h15 hnone
    have ht1 : drumCentroidStage tags ch = tags := by
      unfold drumCentroidStage
      rw [if_neg (not_lt.mpr (h15.trans (by norm_num))),
        if_neg (not_lt.mpr (h15.trans (by norm_num))), if_neg (not_lt.mpr h15)]
    have hr : add_spectral_fallbacks tags ch "drums" = tags ++ [("perc_loop", 1/2)] := by
      rw [asf_drums, if_pos ⟨honset, by rw [ht1]; exact hnone⟩, ht1]
    rw [hr]
    exact List.mem_append_right _ (by simp)

/-- Witness for C5 at tags = [], centroid = 5000, onset strength = 0. -/
theorem claim5_witness :
    ((5000 : ℚ) > 4000 →
      ∃ w, List.lookup "hi-hat"
        (add_spectral_fallbacks [] ⟨5000, 0, 0, 0, 0⟩ "drums") = some w ∧ 3/5 ≤ w) ∧
    ((5000 : ℚ) ≤ 4000 → (5000 : ℚ) > 2500 →
      ∃ w, List.lookup "snare"
        (add_spectral_fallbacks [] ⟨5000, 0, 0, 0, 0⟩ "drums") = some w ∧ 1/2 ≤ w) ∧
    ((5000 : ℚ) ≤ 2500 → (5000 : ℚ) > 1500 →
      ∃ w, List.lookup "kick"
        (add_spectral_fallbacks [] ⟨5000, 0, 0, 0, 0⟩ "drums") = some w ∧ 2/5 ≤ w) ∧
    ((0 : ℚ) > 3/10 → (5000 : ℚ) ≤ 1500 → hasDrumTag [] = false →
      ("perc_loop", 1/2) ∈ add_spectral_fallbacks [] ⟨5000, 0, 0, 0, 0⟩ "drums") :=
  claim5_drum_fallbacks [] ⟨5000, 0, 0, 0, 0⟩

/-! ### Claim C6 -/

/-- C6 counterexample: a band whose powers are [13e-9, 1e-9, 1e-9, 1e-9]
has peak/median = 13 > 12, so the claim's formula says "detected", but the
source divides by median + 1e-9, giving 13e-9/2e-9 = 6.5 ≤ 12, so
detect_sidechain_pump reports not detected. -/
theorem claim6_counterexample :
    bandOf [((0:ℚ), (1:ℚ)), (1, 13/10^9), (2, 1/10^9), (3, 1/10^9), (4, 1/10^9), (5, 1)]
      = [(1, 13/10^9), (2, 1/10^9), (3, 1/10^9), (4, 1/10^9)] ∧
    (peakPair ((1:ℚ), (13:ℚ)/10^9) [(2, 1/10^9), (3, 1/10^9), (4, 1/10^9)]).2
      / medianQ ([((1:ℚ), (13:ℚ)/10^9), (2, 1/10^9), (3, 1/10^9), (4, 1/10^9)].map Prod.snd)
      = 13 ∧
    ((13 : ℚ) > 12) ∧
    (detect_sidechain_pump [0] 1 [0, 1]
      [((0:ℚ), (1:ℚ)), (1, 13/10^9), (2, 1/10^9), (3, 1/10^9), (4, 1/10^9), (5, 1)]).1
      = false := by
  refine ⟨?_, ?_, ?_, ?_⟩
  · norm_num [bandOf, List.filter]
  · norm_num [peakPair, medianQ, List.foldl, List.insertionSort, List.orderedInsert, List.getD]
  · norm_num
  · norm_num [detect_sidechain_pump, bandOf, peakPair, medianQ, listVarQ, listMeanQ,
      List.filter, List.foldl, List.insertionSort, List.orderedInsert, List.getD]

/-- C6 amended: detect_sidechain_pump reports detected exactly when the
peak power of the band divided by (the median band power plus the 1e-9
guard) exceeds 12.0; the reported prominence is clamped to at most 100;
and a numerically constant mean-removed envelope (variance at most 1e-16,
i.e. std at most 1e-8) is reported as not detected. -/
theorem claim6_sidechain_detector (y : List ℚ) (sr : ℕ) (rms : List ℚ)
    (spectrum : List (ℚ × ℚ)) :
    ((listVarQ (rms.map (fun x => x - listMeanQ rms)) ≤ 1/10^16) →
      (detect_sidechain_pump y sr rms spectrum).1 = false) ∧
    (detect_sidechain_pump y sr rms spectrum).2.1 ≤ 100 ∧
    (∀ b rest, ¬ y.length < sr →
      ¬ (listVarQ (rms.map (fun x => x - listMeanQ rms)) ≤ 1/10^16) →
      bandOf spectrum = b :: rest →
      ((detect_sidechain_pump y sr rms spectrum).1 = true ↔
        (peakPair b rest).2 / (medianQ ((b :: rest).map Prod.snd) + 1/10^9) > 12) ∧
      (detect_sidechain_pump y sr rms spectrum).2.1
        = min ((peakPair b rest).2 / (medianQ ((b :: rest).map Prod.snd) + 1/10^9)) 100) := by
  refine ⟨?_, ?_, ?_⟩
  · intro hvar
    unfold detect_sidechain_pump
    by_cases hs : y.length < sr
    · rw [if_pos hs]
    · rw [if_neg hs, if_pos hvar]
  · unfold detect_sidechain_pump
    by_cases hs : y.length < sr
    · rw [if_pos hs]
      norm_num
    · rw [if_neg hs]
      by_cases hvar : listVarQ (rms.map (fun x => x - listMeanQ rms)) ≤ 1/10^16
      · rw [if_pos hvar]
        norm_num
      · rw [if_neg hvar]
        cases hband : bandOf spectrum with
        | nil => norm_num
        | cons b rest => exact min_le_right _ _
  · intro b rest hs hvar hband
    unfold detect_sidechain_pump
    rw [if_neg hs, if_neg hvar, hband]
    exact ⟨decide_eq_true_iff, rfl⟩

/-- Witness for C6, instantiating the detector at the concrete envelope
[0, 1] and the concrete six-bin spectrum of the counterexample input. -/
theorem claim6_witness :
    ((listVarQ ([(0:ℚ), 1].map (fun x => x - listMeanQ [(0:ℚ), 1])) ≤ 1/10^16) →
      (detect_sidechain_pump [0] 1 [0, 1]
        [((0:ℚ), (1:ℚ)), (1, 13/10^9), (2, 1/10^9), (3, 1/10^9), (4, 1/10^9), (5, 1)]).1
        = false) ∧
    (detect_sidechain_pump [0] 1 [0, 1]
      [((0:ℚ), (1:ℚ)), (1, 13/10^9), (2, 1/10^9), (3, 1/10^9), (4, 1/10^9), (5, 1)]).2.1
      ≤ 100 ∧
    (∀ b rest, ¬ ([(0:ℚ)] : List ℚ).length < 1 →
      ¬ (listVarQ ([(0:ℚ), 1].map (fun x => x - listMeanQ [(0:ℚ), 1])) ≤ 1/10^16) →
      bandOf [((0:ℚ), (1:ℚ)), (1, 13/10^9), (2, 1/10^9), (3, 1/10^9), (4, 1/10^9), (5, 1)]
        = b :: rest →
      ((detect_sidechain_pump [0] 1 [0, 1]
          [((0:ℚ), (1:ℚ)), (1, 13/10^9), (2, 1/10^9), (3, 1/10^9), (4, 1/10^9), (5, 1)]).1
          = true ↔
        (peakPair b rest).2 / (medianQ ((b :: rest).map Prod.snd) + 1/10^9) > 12) ∧
      (detect_sidechain_pump [0] 1 [0, 1]
        [((0:ℚ), (1:ℚ)), (1, 13/10^9), (2, 1/10^9), (3, 1/10^9), (4, 1/10^9), (5, 1)]).2.1
        = min ((peakPair b rest).2 / (medianQ ((b :: rest).map Prod.snd) + 1/10^9)) 100) :=
  claim6_sidechain_detector [0] 1 [0, 1]
    [((0:ℚ), (1:ℚ)), (1, 13/10^9), (2, 1/10^9), (3, 1/10^9), (4, 1/10^9), (5, 1)]

/-! ### Claim C8 -/

/-- C8: a clip directory holding only drums.wav and bass.wav yields
exactly the two analyses, in canonical order drums then bass; the global
sidechain summation uses exactly those two waveforms (pad-added); and the
absent stems are omitted without any error path. -/
theorem claim8_orchestrator (present : String → Option (List ℚ))
    (analyze : String → List ℚ → StemAnalysis) (d b : List ℚ)
    (hd : present "drums.wav" = some d) (hb : present "bass.wav" = some b)
    (hv : present "vocals.wav" = none) (ho : present "other.wav" = none) :
    tag_clip_results present analyze = [analyze "drums.wav" d, analyze "bass.wav" b] ∧
    sumPresentStems present = some (padAdd d b) := by
  constructor
  · unfold tag_clip_results canonicalStemFiles
    simp [hd, hb, hv, ho]
  · unfold sumPresentStems canonicalStemFiles
    simp [hd, hb, hv, ho, List.foldl]

/-- Witness for C8 at the clip with drums.wav = [1] and bass.wav = [2]. -/
theorem claim8_witness :
    tag_clip_results
      (fun s => if s = "drums.wav" then some [(1:ℚ)] else if s = "bass.wav" then some [2] else none)
      (fun n _ => ⟨n, 0, 0, [], [], []⟩)
      = [⟨"drums.wav", 0, 0, [], [], []⟩, ⟨"bass.wav", 0, 0, [], [], []⟩] ∧
    sumPresentStems
      (fun s => if s = "drums.wav" then some [(1:ℚ)] else if s = "bass.wav" then some [2] else none)
      = some [3] := by
  have h := claim8_orchestrator
    (fun s => if s = "drums.wav" then some [(1:ℚ)] else if s = "bass.wav" then some [2] else none)
    (fun n _ => ⟨n, 0, 0, [], [], []⟩) [1] [2] (by simp) (by simp) (by simp) (by simp)
  refine ⟨h.1, ?_⟩
  rw [h.2]
  norm_num [padAdd, padTo, List.zipWith]

/-! ### Claim C1 -/

instance instIsTotalScoreDesc : IsTotal (String × ℚ) (fun a b => b.2 ≤ a.2) :=
  ⟨fun a b => le_total b.2 a.2⟩

instance instIsTransScoreDesc : IsTrans (String × ℚ) (fun a b => b.2 ≤ a.2) :=
  ⟨fun _ _ _ h1 h2 => le_trans h2 h1⟩

lemma sortByScoreDesc_sorted (m : List (String × ℚ)) :
    List.Pairwise (fun a b : String × ℚ => b.2 ≤ a.2) (sortByScoreDesc m) :=
  List.sorted_insertionSort _ m

lemma mem_sortByScoreDesc (p : String × ℚ) (m : List (String × ℚ)) :
    p ∈ sortByScoreDesc m ↔ p ∈ m :=
  (List.perm_insertionSort _ m).mem_iff

lemma round2_mono {a b : ℚ} (h : a ≤ b) : round2 a ≤ round2 b := by
  unfold round2
  have hr : round (a * 100) ≤ round (b * 100) := by
    rw [round_eq, round_eq]
    exact Int.floor_le_floor (by linarith)
  exact (div_le_div_iff_of_pos_right (by norm_num)).mpr (by exact_mod_cast hr)

lemma le_round2 {q : ℚ} (h : 3/20 ≤ q) : 3/20 ≤ round2 q := by
  unfold round2
  have h15 : (15 : ℤ) ≤ round (q * 100) := by
    have hle : round ((15 : ℚ)) ≤ round (q * 100) := by
      rw [round_eq, round_eq]
      exact Int.floor_le_floor (by linarith)
    have hr : round ((15 : ℚ)) = 15 := by
      norm_num [round_eq]
    rw [hr] at hle
    exact hle
  have : (15 : ℚ) ≤ ((round (q * 100) : ℤ) : ℚ) := by exact_mod_cast h15
  calc (3 : ℚ)/20 = 15/100 := by norm_num
  _ ≤ ((round (q * 100) : ℤ) : ℚ)/100 := (div_le_div_iff_of_pos_right (by norm_num)).mpr this

lemma contentStage_length (m : List (String × ℚ)) : (contentStage m).length ≤ 3 := by
  unfold contentStage
  rw [List.length_map]
  calc (((sortByScoreDesc m).take 3).filter (fun p => decide (3/20 ≤ p.2))).length
      ≤ ((sortByScoreDesc m).take 3).length := List.length_filter_le _ _
  _ ≤ 3 := by
      rw [List.length_take]
      exact min_le_left _ _

lemma contentStage_scores (m : List (String × ℚ)) :
    ∀ p ∈ contentStage m, 3/20 ≤ p.2 := by
  intro p hp
  unfold contentStage at hp
  rcases List.mem_map.mp hp with ⟨q, hq, rfl⟩
  exact le_round2 (of_decide_eq_true (List.mem_filter.mp hq).2)

lemma contentStage_sorted (m : List (String × ℚ)) :
    List.Pairwise (fun a b : String × ℚ => b.2 ≤ a.2) (contentStage m) := by
  unfold contentStage
  rw [List.pairwise_map]
  have hs : List.Pairwise (fun a b : String × ℚ => b.2 ≤ a.2)
      (((sortByScoreDesc m).take 3).filter (fun p => decide (3/20 ≤ p.2))) :=
    List.Pairwise.sublist
      ((List.filter_sublist _).trans (List.take_sublist _ _))
      (sortByScoreDesc_sorted m)
  exact hs.imp (fun h => round2_mono h)

lemma meta_tags_names (m : List (String × ℚ)) :
    ∀ p ∈ sortByScoreDesc (separate_meta_content_tags m).2,
      p.1 = "stereo_wide" ∨ p.1 = "sidechain_pump" := by
  intro p hp
  rw [mem_sortByScoreDesc] at hp
  unfold separate_meta_content_tags at hp
  have hm := (List.mem_filter.mp hp).2
  unfold isMetaTag at hm
  simpa using hm

/-- C1: every StemAnalysis produced by tag_stem has at most 3 content
tags, each with (rounded) score at least 0.15, sorted descending by
score, and every meta tag label is stereo_wide or sidechain_pump. -/
theorem claim1_stem_analysis_invariants (file stem_name : String)
    (preds : List (String × ℚ)) (centroid width : ℚ) (ch : Characteristics)
    (sc_detected : Bool) (sc_score : ℚ) (global_sidechain : Bool) :
    (tag_stem file stem_name preds centroid width ch sc_detected sc_score
      global_sidechain).content_tags.length ≤ 3 ∧
    (∀ p ∈ (tag_stem file stem_name preds centroid width ch sc_detected sc_score
      global_sidechain).content_tags, 3/20 ≤ p.2) ∧
    List.Pairwise (fun a b : String × ℚ => b.2 ≤ a.2)
      (tag_stem file stem_name preds centroid width ch sc_detected sc_score
        global_sidechain).content_tags ∧
    (∀ p ∈ (tag_stem file stem_name preds centroid width ch sc_detected sc_score
      global_sidechain).meta_tags, p.1 = "stereo_wide" ∨ p.1 = "sidechain_pump") :=
  ⟨contentStage_length _, contentStage_scores _, contentStage_sorted _, meta_tags_names _⟩

/-- Witness for C1 at a concrete stem: one prediction, wide stereo, a
sidechain flag, all thresholds crossed. -/
theorem claim1_witness :
    (tag_stem "drums.wav" "mydrums" [("kick drum", (9:ℚ)/10)] 5000 (1/2)
      ⟨5000, 0, 0, 0, 1⟩ true (1/2) false).content_tags.length ≤ 3 ∧
    (∀ p ∈ (tag_stem "drums.wav" "mydrums" [("kick drum", (9:ℚ)/10)] 5000 (1/2)
      ⟨5000, 0, 0, 0, 1⟩ true (1/2) false).content_tags, 3/20 ≤ p.2) ∧
    List.Pairwise (fun a b : String × ℚ => b.2 ≤ a.2)
      (tag_stem "drums.wav" "mydrums" [("kick drum", (9:ℚ)/10)] 5000 (1/2)
        ⟨5000, 0, 0, 0, 1⟩ true (1/2) false).content_tags ∧
    (∀ p ∈ (tag_stem "drums.wav" "mydrums" [("kick drum", (9:ℚ)/10)] 5000 (1/2)
      ⟨5000, 0, 0, 0, 1⟩ true (1/2) false).meta_tags,
      p.1 = "stereo_wide" ∨ p.1 = "sidechain_pump") :=
  claim1_stem_analysis_invariants "drums.wav" "mydrums" [("kick drum", (9:ℚ)/10)] 5000 (1/2)
    ⟨5000, 0, 0, 0, 1⟩ true (1/2) false

/-! ### Claims C4 and C10 -/

lemma listVar_const (xs : List ℝ) (c : ℝ) (h : ∀ x ∈ xs, x = c) : listVarR xs = 0 := by
  cases xs with
  | nil => simp [listVarR, dotR, devs]
  | cons a t =>
    have hn : ((a :: t).length : ℝ) ≠ 0 := by
      have h0 : (0:ℝ) < ((a :: t).length : ℝ) := by
        exact_mod_cast Nat.succ_pos t.length
      exact ne_of_gt h0
    have hmean : listMeanR (a :: t) = c := by
      unfold listMeanR
      rw [List.sum_eq_card_nsmul (a :: t) c h, nsmul_eq_mul]
      exact mul_div_cancel_left₀ c hn
    have hdev : ∀ y ∈ devs (a :: t), y = 0 := by
      intro y hy
      rcases List.mem_map.mp hy with ⟨x, hx, rfl⟩
      rw [hmean, h x hx]
      ring
    have hdot : dotR (devs (a :: t)) (devs (a :: t)) = 0 := by
      unfold dotR
      rw [List.zipWith_same]
      have hz : ∀ z ∈ (devs (a :: t)).map (fun y => y * y), z = 0 := by
        intro z hz
        rcases List.mem_map.mp hz with ⟨y, hy, rfl⟩
        rw [hdev y hy]
        ring
      rw [List.sum_eq_card_nsmul _ 0 hz]
      simp
    unfold listVarR
    rw [hdot]
    simp

/-- C10: a stereo file in which either channel is constant makes
stereo_width_estimate return 0.0 from the numerically-constant guard,
before the correlation (and its division) is ever attempted. -/
theorem claim10_constant_channel (f : AudioFile) (hch : 2 ≤ f.channels)
    (hconst : (∃ c, ∀ x ∈ f.chanL, x = c) ∨ (∃ c, ∀ x ∈ f.chanR, x = c)) :
    stereo_width_estimate f = 0 := by
  unfold stereo_width_estimate
  rw [if_neg (by omega : ¬ f.channels < 2)]
  have hg : Real.sqrt (listVarR f.chanL) ≤ 1/10^8 ∨ Real.sqrt (listVarR f.chanR) ≤ 1/10^8 := by
    rcases hconst with ⟨c, hc⟩ | ⟨c, hc⟩
    · left
      rw [listVar_const f.chanL c hc, Real.sqrt_zero]
      norm_num
    · right
      rw [listVar_const f.chanR c hc, Real.sqrt_zero]
      norm_num
  rw [if_pos hg]

/-- Witness for C10 at the stereo file with constant left channel [5, 5]. -/
theorem claim10_witness : stereo_width_estimate ⟨2, [5, 5], [0, 1]⟩ = 0 :=
  claim10_constant_channel ⟨2, [5, 5], [0, 1]⟩ (by norm_num)
    (Or.inl ⟨5, by
      intro x hx
      simp only [List.mem_cons, List.not_mem_nil, or_false] at hx
      rcases hx with h | h <;> exact h⟩)

/-- C4 counterexample: the stereo file with channels [1, -1] and [-1, 1]
is perfectly anti-correlated, so the returned width is 1 - (-1) = 2,
refuting the claim that the recorded stereo width always lies in [0, 1]. -/
theorem claim4_counterexample :
    stereo_width_estimate ⟨2, [1, -1], [-1, 1]⟩ = 2 ∧
    ¬ stereo_width_estimate ⟨2, [1, -1], [-1, 1]⟩ ≤ 1 := by
  have hvarL : listVarR [(1:ℝ), -1] = 1 := by
    norm_num [listVarR, devs, listMeanR, dotR, List.zipWith, List.sum_cons, List.sum_nil]
  have hvarR : listVarR [(-1:ℝ), 1] = 1 := by
    norm_num [listVarR, devs, listMeanR, dotR, List.zipWith, List.sum_cons, List.sum_nil]
  have hdotLR : dotR (devs [(1:ℝ), -1]) (devs [(-1:ℝ), 1]) = -2 := by
    norm_num [devs, listMeanR, dotR, List.zipWith, List.sum_cons, List.sum_nil]
  have hdotLL : dotR (devs [(1:ℝ), -1]) (devs [(1:ℝ), -1]) = 2 := by
    norm_num [devs, listMeanR, dotR, List.zipWith, List.sum_cons, List.sum_nil]
  have hdotRR : dotR (devs [(-1:ℝ), 1]) (devs [(-1:ℝ), 1]) = 2 := by
    norm_num [devs, listMeanR, dotR, List.zipWith, List.sum_cons, List.sum_nil]
  have hcorr : corrcoef [(1:ℝ), -1] [(-1:ℝ), 1] = -1 := by
    unfold corrcoef
    rw [hdotLR, hdotLL, hdotRR, Real.mul_self_sqrt (by norm_num : (0:ℝ) ≤ 2)]
    norm_num
  have hw : stereo_width_estimate ⟨2, [1, -1], [-1, 1]⟩ = 2 := by
    unfold stereo_width_estimate
    rw [if_neg (by norm_num), if_neg ?hguard]
    case hguard =>
      intro h
      rcases h with h | h
      · rw [show (⟨2, [1, -1], [-1, 1]⟩ : AudioFile).chanL = [(1:ℝ), -1] from rfl,
          hvarL, Real.sqrt_one] at h
        norm_num at h
      · rw [show (⟨2, [1, -1], [-1, 1]⟩ : AudioFile).chanR = [(-1:ℝ), 1] from rfl,
          hvarR, Real.sqrt_one] at h
        norm_num at h
    rw [show (⟨2, [1, -1], [-1, 1]⟩ : AudioFile).chanL = [(1:ℝ), -1] from rfl,
      show (⟨2, [1, -1], [-1, 1]⟩ : AudioFile).chanR = [(-1:ℝ), 1] from rfl, hcorr]
    norm_num
  exact ⟨hw, by rw [hw]; norm_num⟩

/-- C4 amended: stereo_width_estimate returns 0.0 for a mono file, it
returns 0.0 for identical (or numerically constant) channels, and its
value — recorded as stereo_width in the StemAnalysis — always lies in
[0, 2] (not [0, 1]): the clamp of the correlation to [-1, 1] bounds
1 - clamp(corr) by 2, attained at perfect anti-correlation. -/
theorem claim4_stereo_width (f : AudioFile) :
    (f.channels < 2 → stereo_width_estimate f = 0) ∧
    0 ≤ stereo_width_estimate f ∧ stereo_width_estimate f ≤ 2 ∧
    (2 ≤ f.channels → f.chanL = f.chanR → stereo_width_estimate f = 0) := by
  refine ⟨?_, ?_, ?_, ?_⟩
  · intro h
    unfold stereo_width_estimate
    rw [if_pos h]
  · unfold stereo_width_estimate
    split_ifs with h1 h2
    · norm_num
    · norm_num
    · have hub : max (min (corrcoef f.chanL f.chanR) 1) (-1) ≤ 1 :=
        max_le (min_le_right _ _) (by norm_num)
      linarith
  · unfold stereo_width_estimate
    split_ifs with h1 h2
    · norm_num
    · norm_num
    · have hlb : (-1 : ℝ) ≤ max (min (corrcoef f.chanL f.chanR) 1) (-1) := le_max_right _ _
      linarith
  · intro hch hLR
    unfold stereo_width_estimate
    rw [if_neg (by omega : ¬ f.channels < 2)]
    by_cases hg : Real.sqrt (listVarR f.chanL) ≤ 1/10^8 ∨ Real.sqrt (listVarR f.chanR) ≤ 1/10^8
    · rw [if_pos hg]
    · rw [if_neg hg]
      push_neg at hg
      obtain ⟨hgl, _⟩ := hg
      have hvar : 0 < listVarR f.chanL := by
        by_contra hle
        have h0 : Real.sqrt (listVarR f.chanL) = 0 := Real.sqrt_eq_zero'.mpr (not_lt.mp hle)
        rw [h0] at hgl
        norm_num at hgl
      have hdotpos : 0 < dotR (devs f.chanL) (devs f.chanL) := by
        have hv := hvar
        unfold listVarR at hv
        rcases div_pos_iff.mp hv with ⟨hp, _⟩ | ⟨_, hneg⟩
        · exact hp
        · exact absurd hneg (not_lt.mpr (Nat.cast_nonneg _))
      have hcorr : corrcoef f.chanL f.chanR = 1 := by
        rw [← hLR]
        unfold corrcoef
        rw [Real.mul_self_sqrt (le_of_lt hdotpos)]
        exact div_self (ne_of_gt hdotpos)
      rw [hcorr]
      norm_num

/-- Witness for C4 at the mono file with one channel. -/
theorem claim4_witness :
    ((⟨1, [0], [0]⟩ : AudioFile).channels < 2 →
      stereo_width_estimate ⟨1, [0], [0]⟩ = 0) ∧
    0 ≤ stereo_width_estimate ⟨1, [0], [0]⟩ ∧
    stereo_width_estimate ⟨1, [0], [0]⟩ ≤ 2 ∧
    (2 ≤ (⟨1, [0], [0]⟩ : AudioFile).channels →
      ([(0:ℝ)] : List ℝ) = [0] → stereo_width_estimate ⟨1, [0], [0]⟩ = 0) :=
  claim4_stereo_width ⟨1, [0], [0]⟩
